import Mathlib

/-!
Roxiler reporting API: the route handlers of `routes/index.js`.

A shallow embedding of the four query handlers of `src/routes/index.js`
(`/transactions`, `/statistics`, `/bar_chart`, `/pie_chart`) together with a
model of the parts of the JavaScript runtime, of Mongoose and of the document
store that the handlers rely on: regular-expression construction and search,
schema casting of query filters, `find().skip().limit()`, `countDocuments` and
the `$match` / `$group` aggregation stages.

Conventions.
* The collection is a list of documents in the store's natural order.
* A field that is absent (or `null`) in a document is `none`.
* A number is a rational: every double is one, and comparisons of doubles are
  exact.  A floating-point sum is given a value only where it is exact (whole
  numbers of bounded size); elsewhere it is kept as a `rounded` sum of its
  operands.
* Query parameters are text; `none` is an absent parameter.  `page` and
  `perPage` are modelled for decimal integer text only, so they are integers.
* Regular expressions are modelled for literal characters, escaped punctuation,
  groups, `|`, `*`, `+` and `?`; a pattern with any other construct is reported
  as `unsupported` and a request that carries one as `unmodelled`.
-/

set_option autoImplicit false

namespace Roxiler

/-! ## Regular expressions -/

/-- The semantic form of a regular expression: search only needs its language. -/
abbrev RE := RegularExpression Char

/-- Why a pattern yields no expression.  `syntaxError` is the `SyntaxError`
thrown by `new RegExp` (or the compile error of the store); `unsupported` marks
a construct that lies outside the fragment modelled here (character classes,
`.`, anchors, counted repetition, special groups, alphanumeric escapes). -/
inductive RegExpError where
  | syntaxError
  | unsupported
  deriving DecidableEq, Repr

/-- The term a quantifier character would apply to. -/
inductive Slot where
  /-- start of an alternative: nothing to repeat -/
  | empty
  /-- directly after an opening parenthesis -/
  | opened
  /-- an atom was just read -/
  | fresh (t : RE)
  /-- the last term already carries a quantifier -/
  | quantified (t : RE)
  /-- the last term carries a quantifier and its lazy modifier -/
  | lazy (t : RE)

/-- The part of a group that is already complete: the alternatives closed by
`|` and the concatenation of the finished terms of the current alternative. -/
structure Frame where
  alts : Option RE
  done : RE

/-- Concatenation of the finished terms with the pending term. -/
def Slot.flush (done : RE) : Slot → RE
  | .empty => done
  | .opened => done
  | .fresh t => done * t
  | .quantified t => done * t
  | .lazy t => done * t

/-- The expression denoted by a group whose text has been read completely. -/
def Frame.close (f : Frame) (s : Slot) : RE :=
  match f.alts with
  | some a => a + s.flush f.done
  | none => s.flush f.done

/-- Characters that may follow a backslash as an identity escape in both the
JavaScript and the store dialect: ASCII characters that are not alphanumeric. -/
def isIdentityEscape (c : Char) : Bool :=
  decide (c.toNat < 128) && !c.isAlphanum

/-- Characters with a meaning that is not modelled. -/
def isUnsupportedChar (c : Char) : Bool :=
  c == '.' || c == '[' || c == ']' || c == '{' || c == '}' || c == '^' || c == '$'
    || decide (65536 ≤ c.toNat)

/-- State of the pattern reader: the enclosing groups, the current group, the
pending term, and whether the previous character was an unescaped backslash. -/
structure ParseState where
  stack : List Frame
  frame : Frame
  slot : Slot
  escaped : Bool

/-- Start of a pattern. -/
def ParseState.start : ParseState :=
  ⟨[], ⟨none, 1⟩, .empty, false⟩

/-- The state after reading a literal character. -/
def ParseState.literal (st : ParseState) (c : Char) : ParseState :=
  ⟨st.stack, ⟨st.frame.alts, st.slot.flush st.frame.done⟩, .fresh (.char c), false⟩

/-- Reads one character of the pattern. -/
def parseStep (st : ParseState) (c : Char) : Except RegExpError ParseState :=
  if st.escaped then
    if isIdentityEscape c then .ok (st.literal c) else .error .unsupported
  else if c = '\\' then
    .ok { st with escaped := true }
  else if c = '(' then
    .ok ⟨⟨st.frame.alts, st.slot.flush st.frame.done⟩ :: st.stack, ⟨none, 1⟩, .opened, false⟩
  else if c = ')' then
    match st.stack with
    | [] => .error .syntaxError
    | p :: stack => .ok ⟨stack, p, .fresh (st.frame.close st.slot), false⟩
  else if c = '|' then
    .ok ⟨st.stack, ⟨some (st.frame.close st.slot), 1⟩, .empty, false⟩
  else if c = '*' then
    match st.slot with
    | .fresh t => .ok { st with slot := .quantified (.star t) }
    | _ => .error .syntaxError
  else if c = '+' then
    match st.slot with
    | .fresh t => .ok { st with slot := .quantified (t * .star t) }
    | _ => .error .syntaxError
  else if c = '?' then
    match st.slot with
    | .fresh t => .ok { st with slot := .quantified (t + 1) }
    | .quantified t => .ok { st with slot := .lazy t }
    | .opened => .error .unsupported
    | _ => .error .syntaxError
  else if isUnsupportedChar c then .error .unsupported
  else .ok (st.literal c)

/-- End of the pattern: a pending backslash or an open group is an error. -/
def parseEnd (st : ParseState) : Except RegExpError RE :=
  if st.escaped then .error .syntaxError
  else
    match st.stack with
    | [] => .ok (st.frame.close st.slot)
    | _ :: _ => .error .syntaxError

/-- Pattern parser: reads the pattern text left to right. -/
def parseFrom : List Char → ParseState → Except RegExpError RE
  | [], st => parseEnd st
  | c :: rest, st =>
    match parseStep st c with
    | .ok st' => parseFrom rest st'
    | .error e => .error e

/-- Model of `new RegExp(source)` without flags. -/
def newRegExp (source : String) : Except RegExpError RE :=
  parseFrom source.toList .start

/-- Unanchored search: some contiguous part of the subject is in the language. -/
def regexTest (re : RE) (subject : List Char) : Bool :=
  subject.tails.any fun t => t.inits.any fun w => re.rmatch w

/-- Model of the regular-expression search of the store for a pattern given as
text with an options string.  With option `i` letters are compared without
regard to (ASCII) case. -/
def regexTextTest (source options : String) : Except RegExpError (List Char → Bool) :=
  if options.toList.contains 'i' then
    (parseFrom (source.toList.map Char.toLower) .start).map
      fun re subject => regexTest re (subject.map Char.toLower)
  else
    (parseFrom source.toList .start).map fun re subject => regexTest re subject

/-! ## Documents and schema (`productTransactionSchema`, lines 16-25) -/

/-- A stored product transaction.  Every path of the schema is optional. -/
structure ProductTransaction where
  id : Option ℚ
  title : Option String
  price : Option ℚ
  description : Option String
  category : Option String
  image : Option String
  sold : Option Bool
  dateOfSale : Option String
  deriving DecidableEq

/-- Paths of the schema. -/
inductive Path where
  | id | title | price | description | category | image | sold | dateOfSale
  deriving DecidableEq, Repr

/-- Schema types used by `productTransactionSchema`. -/
inductive SchemaType where
  | number | string | boolean
  deriving DecidableEq, Repr

/-- The schema: the declared type of each path. -/
def productTransactionSchema : Path → SchemaType
  | .id => .number
  | .title => .string
  | .price => .number
  | .description => .string
  | .category => .string
  | .image => .string
  | .sold => .boolean
  | .dateOfSale => .string

/-- The text stored at a path, when the path holds text. -/
def ProductTransaction.text (d : ProductTransaction) : Path → Option String
  | .title => d.title
  | .description => d.description
  | .category => d.category
  | .image => d.image
  | .dateOfSale => d.dateOfSale
  | .id => none
  | .price => none
  | .sold => none

/-! ## Query filters -/

/-- The conditions on one path that the handlers build. -/
inductive Clause where
  /-- `dateOfSale: { $regex: <RegExp object> }` -/
  | dateOfSaleRegExp (re : RE)
  /-- `<path>: { $regex: <text>, $options: <text> }` -/
  | regexText (path : Path) (source options : String)
  /-- `sold: <boolean>` -/
  | sold (value : Bool)
  /-- `price: { $gte: min, $lte: max }`; `none` is `Infinity` -/
  | price (gte : ℚ) (lte : Option ℚ)

/-- A filter object: conditions on paths, all of which must hold, and an
optional `$or` list of one-path objects, one of which must hold. -/
structure Filter where
  paths : List Clause
  or : Option (List Clause)

/-- How an operation of the runtime or the store ends without a value:
`thrown` is an exception (caught by the handler's `catch`), `unmodelled` marks
a pattern outside the modelled fragment. -/
inductive Failure where
  | thrown
  | unmodelled
  deriving DecidableEq, Repr

/-- Result of an operation that may throw. -/
abbrev Run (α : Type) := Except Failure α

/-- Runs `f` on every element in order; the first failure ends the run. -/
def mapRun {α β : Type} (f : α → Run β) : List α → Run (List β)
  | [] => .ok []
  | a :: rest =>
    match f a with
    | .error e => .error e
    | .ok b =>
      match mapRun f rest with
      | .error e => .error e
      | .ok bs => .ok (b :: bs)

/-- Failure corresponding to a pattern error. -/
def RegExpError.toFailure : RegExpError → Failure
  | .syntaxError => .thrown
  | .unsupported => .unmodelled

/-- Schema casting of a clause by Mongoose when a query is executed: a path of
schema type `Number` or `Boolean` has no handler for `$regex` and `$options`,
so casting such a clause throws a `CastError`; the other clauses the handlers
build are cast without error. -/
def castClause : Clause → Run Unit
  | .dateOfSaleRegExp _ => .ok ()
  | .regexText path _ _ =>
    if productTransactionSchema path = .string then .ok () else .error .thrown
  | .sold _ => .ok ()
  | .price _ _ => .ok ()

/-- The test of `dateOfSale: { $regex: re }`: the path holds text in which the
expression is found. -/
def monthMatches (re : RE) (d : ProductTransaction) : Bool :=
  match d.dateOfSale with
  | some s => regexTest re s.toList
  | none => false

/-- The predicate on documents denoted by a clause.  A text pattern is compiled
by the store, which rejects an invalid pattern. -/
def evalClause : Clause → Run (ProductTransaction → Bool)
  | .dateOfSaleRegExp re => .ok (monthMatches re)
  | .regexText path source options =>
      match regexTextTest source options with
      | .ok test => .ok fun d =>
          match d.text path with
          | some s => test s.toList
          | none => false
      | .error e => .error e.toFailure
  | .sold value => .ok fun d => d.sold == some value
  | .price gte lte => .ok fun d =>
      match d.price with
      | some p =>
        decide (gte ≤ p) &&
          (match lte with
           | some hi => decide (p ≤ hi)
           | none => true)
      | none => false

/-- The predicate denoted by a filter object. -/
def evalFilter (f : Filter) : Run (ProductTransaction → Bool) := do
  let conds ← mapRun evalClause f.paths
  match f.or with
  | none => pure fun d => conds.all fun c => c d
  | some alternatives =>
    let alts ← mapRun evalClause alternatives
    pure fun d => (conds.all fun c => c d) && (alts.any fun c => c d)

/-- Schema casting of a whole filter object, `$or` members included. -/
def castFilter (f : Filter) : Run Unit := do
  let _ ← mapRun castClause f.paths
  match f.or with
  | none => pure ()
  | some alternatives =>
    let _ ← mapRun castClause alternatives
    pure ()

/-! ## Store operations -/

/-- The collection. -/
abbrev Collection := List ProductTransaction

/-- `Model.find(filter).skip(skip).limit(limit)`: the filter is cast against
the schema, the store rejects a negative skip, a limit of zero means no limit
and a negative limit is sent as its absolute value. -/
def find (db : Collection) (filter : Filter) (skip limit : Int) :
    Run (List ProductTransaction) := do
  castFilter filter
  let keep ← evalFilter filter
  if skip < 0 then throw .thrown
  let rest := (db.filter keep).drop skip.toNat
  pure (if limit = 0 then rest else rest.take limit.natAbs)

/-- `Model.countDocuments(filter)`. -/
def countDocuments (db : Collection) (filter : Filter) : Run Nat := do
  castFilter filter
  let keep ← evalFilter filter
  pure (db.filter keep).length

/-- The `$match` stage of an aggregation pipeline (no schema casting). -/
def aggregateMatch (db : Collection) (filter : Filter) : Run (List ProductTransaction) := do
  let keep ← evalFilter filter
  pure (db.filter keep)

/-- The value of a sum computed by the store.  Prices are JavaScript numbers,
so the store adds them in double-precision floating point. -/
inductive Amount where
  /-- the floating-point sum is exact and has this value -/
  | exact (value : ℚ)
  /-- the floating-point sum of these operands as rounded by the store; its
  value is not modelled -/
  | rounded (operands : List ℚ)
  deriving DecidableEq

instance (n : Nat) : OfNat Amount n := ⟨.exact n⟩

/-- The numeric prices of the documents, in order. -/
def prices (docs : List ProductTransaction) : List ℚ :=
  docs.filterMap fun d => d.price

/-- The operands are whole numbers whose absolute values add up to at most
`2 ^ 53`: every partial sum is an integer that a double represents, so adding
them in floating point (or as integers) is exact in every order. -/
def exactlySummable (operands : List ℚ) : Bool :=
  operands.all (fun q => q.den == 1) &&
    decide ((operands.map fun q => q.num.natAbs).sum ≤ 2 ^ 53)

/-- The `$sum` accumulator over numeric operands: the exact sum where floating
point is exact, a rounded sum of the same operands otherwise. -/
def storeSum (operands : List ℚ) : Amount :=
  if exactlySummable operands then .exact operands.sum else .rounded operands

/-- `{ $group: { _id: null, total: { $sum: "$price" } } }`: one group when
there is an input document, none otherwise; documents without a numeric price
add nothing. -/
def groupTotalPrice (docs : List ProductTransaction) : List Amount :=
  match docs with
  | [] => []
  | _ :: _ => [storeSum (prices docs)]

/-- Count one more document under `key`. -/
def bump (key : Option String) : List (Option String × Nat) → List (Option String × Nat)
  | [] => [(key, 1)]
  | (k, n) :: rest => if k = key then (k, n + 1) :: rest else (k, n) :: bump key rest

/-- `{ $group: { _id: "$category", count: { $sum: 1 } } }`: groups are listed in
order of first occurrence (the store promises no order). -/
def groupCountByCategory (docs : List ProductTransaction) : List (Option String × Nat) :=
  docs.foldl (fun acc d => bump d.category acc) []

/-! ## The route handlers -/

/-- What a handler sends: `ok` is a 200 response with a body, `serverError` the
500 response of the `catch` branch with its text, `unmodelled` a request whose
pattern lies outside the modelled fragment. -/
inductive Response (α : Type) where
  | ok (body : α)
  | serverError (message : String)
  | unmodelled
  deriving DecidableEq

/-- The `try { ... } catch { res.status(500).send(message) }` frame of a handler. -/
def respond {α : Type} (message : String) : Run α → Response α
  | .ok body => .ok body
  | .error .thrown => .serverError message
  | .error .unmodelled => .unmodelled

/-- Text of a query parameter inside a template literal. -/
def templateText : Option String → String
  | some s => s
  | none => "undefined"

/-- Source text of the month pattern. -/
def monthPattern (month : Option String) : String :=
  "-0?" ++ templateText month ++ "-"

/-- The `monthFilter` of lines 52, 80, 116 and 151:
`{ dateOfSale: { $regex: new RegExp(...) } }`. -/
def monthFilter (month : Option String) : Run Clause :=
  match newRegExp (monthPattern month) with
  | .ok re => .ok (.dateOfSaleRegExp re)
  | .error e => .error e.toFailure

/-- Truthiness of the `search` parameter. -/
def isTruthy : Option String → Bool
  | some s => s != ""
  | none => false

/-- The `searchFilter` of lines 56-62. -/
def searchFilter (search : String) : List Clause :=
  [.regexText .title search "i", .regexText .description search "i",
   .regexText .price search "i"]

/-- Handler of `GET /transactions` (lines 49-74). -/
def listTransactions (db : Collection) (month search : Option String)
    (page perPage : Option Int) : Response (List ProductTransaction) :=
  let page := page.getD 1
  let perPage := perPage.getD 10
  respond "Error fetching transactions." do
    let monthFilter ← monthFilter month
    let filter : Filter :=
      if isTruthy search then
        { paths := [monthFilter], or := some (searchFilter (search.getD "")) }
      else
        { paths := [monthFilter], or := none }
    find db filter ((page - 1) * perPage) perPage

/-- Body of the `/statistics` response. -/
structure Statistics where
  totalSaleAmount : Amount
  totalSoldItems : Nat
  totalNotSoldItems : Nat
  deriving DecidableEq

/-- Handler of `GET /statistics` (lines 77-110). -/
def statistics (db : Collection) (month : Option String) : Response Statistics :=
  respond "Error fetching statistics." do
    let monthFilter ← monthFilter month
    let totalSaleAmount ← (aggregateMatch db ⟨[monthFilter], none⟩).map groupTotalPrice
    let totalSoldItems ← countDocuments db ⟨[monthFilter, .sold true], none⟩
    let totalNotSoldItems ← countDocuments db ⟨[monthFilter, .sold false], none⟩
    let totalAmount :=
      match totalSaleAmount with
      | total :: _ => total
      | [] => 0
    pure ⟨totalAmount, totalSoldItems, totalNotSoldItems⟩

/-- One entry of `priceRanges`; `max = none` is `Infinity`. -/
structure PriceRange where
  range : String
  min : ℚ
  max : Option ℚ

/-- The `priceRanges` table of lines 117-128. -/
def priceRanges : List PriceRange :=
  [ ⟨"0 - 100", 0, some 100⟩,
    ⟨"101 - 200", 101, some 200⟩,
    ⟨"201 - 300", 201, some 300⟩,
    ⟨"301 - 400", 301, some 400⟩,
    ⟨"401 - 500", 401, some 500⟩,
    ⟨"501 - 600", 501, some 600⟩,
    ⟨"601 - 700", 601, some 700⟩,
    ⟨"701 - 800", 701, some 800⟩,
    ⟨"801 - 900", 801, some 900⟩,
    ⟨"901 - above", 901, none⟩ ]

/-- One entry of the `/bar_chart` response. -/
structure BarEntry where
  range : String
  count : Nat
  deriving DecidableEq

/-- Handler of `GET /bar_chart` (lines 113-145). -/
def barChart (db : Collection) (month : Option String) : Response (List BarEntry) :=
  respond "Error fetching bar chart data." do
    let monthFilter ← monthFilter month
    mapRun
      (fun (r : PriceRange) =>
        (countDocuments db ⟨[monthFilter, .price r.min r.max], none⟩).map
          fun count => (⟨r.range, count⟩ : BarEntry))
      priceRanges

/-- One entry of the `/pie_chart` response. -/
structure PieEntry where
  category : Option String
  count : Nat
  deriving DecidableEq

/-- Handler of `GET /pie_chart` (lines 148-168). -/
def pieChart (db : Collection) (month : Option String) : Response (List PieEntry) :=
  respond "Error fetching pie chart data." do
    let monthFilter ← monthFilter month
    let pieChartData ← (aggregateMatch db ⟨[monthFilter], none⟩).map groupCountByCategory
    pure (pieChartData.map fun g => ⟨g.1, g.2⟩)

/-! ## Notions used to state the properties -/

/-- The expression read from a run of literal characters that follows `done`. -/
def literals (done : RE) (cs : List Char) : RE :=
  cs.foldl (fun acc c => acc * .char c) done

/-- A character that stands for itself in a pattern. -/
def isPlain (c : Char) : Bool :=
  !(c == '\\' || c == '(' || c == ')' || c == '|' || c == '*' || c == '+' || c == '?')
    && !isUnsupportedChar c

/-- The expression of the month pattern for a month text of plain characters. -/
def monthExpression (m : List Char) : RE :=
  literals (1 * .char '-' * (.char '0' + 1)) (m ++ ['-'])

/-- The text contains a dash, an optional `0`, the month text and a dash, in
this order and next to each other. -/
def containsMonth (m : String) (text : String) : Prop :=
  ('-' :: (m.toList ++ ['-'])) <:+: text.toList ∨
    ('-' :: '0' :: (m.toList ++ ['-'])) <:+: text.toList

instance (m text : String) : Decidable (containsMonth m text) := by
  unfold containsMonth
  infer_instance

/-- The record has a `dateOfSale` that contains the month. -/
def dateContainsMonth (m : String) (d : ProductTransaction) : Prop :=
  match d.dateOfSale with
  | some text => containsMonth m text
  | none => False

instance (m : String) (d : ProductTransaction) : Decidable (dateContainsMonth m d) := by
  unfold dateContainsMonth
  cases d.dateOfSale <;> infer_instance

/-- A document with the given `dateOfSale` and nothing else of interest. -/
def dated (date : String) : ProductTransaction :=
  { id := none, title := none, price := none, description := none, category := none,
    image := none, sold := none, dateOfSale := some date }

/-- The month-matching records, in store order. -/
def matching (re : RE) (db : Collection) : List ProductTransaction :=
  db.filter (monthMatches re)

/-- The price lies in the range, bounds included; a range without `max` has
no upper bound. -/
def PriceRange.contains (r : PriceRange) (p : ℚ) : Prop :=
  r.min ≤ p ∧ ∀ hi ∈ r.max, p ≤ hi

instance (r : PriceRange) (p : ℚ) : Decidable (r.contains p) := by
  unfold PriceRange.contains
  infer_instance

/-- The record has a price that lies in the range. -/
def PriceRange.holds (r : PriceRange) (d : ProductTransaction) : Bool :=
  match d.price with
  | some p => decide (r.contains p)
  | none => false

/-- The record has a price that lies in one of the `priceRanges`. -/
def inSomeRange (d : ProductTransaction) : Bool :=
  priceRanges.any fun r => r.holds d

/-- The record has a price that is not negative. -/
def hasNonNegativePrice (d : ProductTransaction) : Bool :=
  match d.price with
  | some p => decide (0 ≤ p)
  | none => false

/-- A document dated 2024-03-05 with the given price and nothing else. -/
def priced (p : ℚ) : ProductTransaction :=
  { id := none, title := none, price := some p, description := none, category := none,
    image := none, sold := none, dateOfSale := some "2024-03-05" }

/-- The labels of the ten entries of the bar chart, in order. -/
def rangeLabels : List String :=
  ["0 - 100", "101 - 200", "201 - 300", "301 - 400", "401 - 500", "501 - 600",
   "601 - 700", "701 - 800", "801 - 900", "901 - above"]

/-- Total of the counts listed under `key`. -/
def tally (key : Option String) (groups : List (Option String × Nat)) : Nat :=
  ((groups.filter fun g => g.1 = key).map fun g => g.2).sum

/-- The three-record scenario: dates 2024-03-05, 2024-3-15, 2024-04-01, prices
50, 150, 999, sold true, false, true. -/
def scenario : Collection :=
  [ { id := some 1, title := some "a", price := some 50, description := some "x",
      category := some "c1", image := none, sold := some true,
      dateOfSale := some "2024-03-05" },
    { id := some 2, title := some "b", price := some 150, description := some "y",
      category := some "c2", image := none, sold := some false,
      dateOfSale := some "2024-3-15" },
    { id := some 3, title := some "c", price := some 999, description := some "z",
      category := some "c1", image := none, sold := some true,
      dateOfSale := some "2024-04-01" } ]

/-! ## Regular expressions: search and the month pattern -/

open RegularExpression

theorem regexTest_iff (re : RE) (s : List Char) :
    regexTest re s = true ↔ ∃ w, w <:+: s ∧ re.rmatch w = true := by
  simp only [regexTest, List.any_eq_true, List.mem_tails, List.mem_inits]
  constructor
  · rintro ⟨t, ht, w, hw, h⟩
    exact ⟨w, List.infix_iff_prefix_suffix.mpr ⟨t, hw, ht⟩, h⟩
  · rintro ⟨w, hw, h⟩
    obtain ⟨t, hwt, hts⟩ := List.infix_iff_prefix_suffix.mp hw
    exact ⟨t, hts, w, hwt, h⟩

theorem literals_rmatch_iff (cs : List Char) (done : RE) (w : List Char) :
    (literals done cs).rmatch w = true ↔ ∃ u, done.rmatch u = true ∧ w = u ++ cs := by
  induction cs generalizing done with
  | nil => simp [literals]
  | cons c cs ih =>
    have := ih (done * .char c)
    simp only [literals, List.foldl_cons] at this ⊢
    rw [this]
    constructor
    · rintro ⟨u, hu, rfl⟩
      obtain ⟨a, b, rfl, ha, hb⟩ := (mul_rmatch_iff _ _ _).mp hu
      rw [char_rmatch_iff] at hb
      subst hb
      exact ⟨a, ha, by simp⟩
    · rintro ⟨u, hu, rfl⟩
      refine ⟨u ++ [c], (mul_rmatch_iff _ _ _).mpr ⟨u, [c], rfl, hu, ?_⟩, by simp⟩
      rw [char_rmatch_iff]

theorem parseStep_plain (c : Char) (h : isPlain c = true) (st : ParseState)
    (hst : st.escaped = false) : parseStep st c = .ok (st.literal c) := by
  simp only [isPlain, Bool.and_eq_true, Bool.not_eq_true', Bool.or_eq_false_iff,
    beq_eq_false_iff_ne, ne_eq] at h
  obtain ⟨⟨⟨⟨⟨⟨⟨h1, h2⟩, h3⟩, h4⟩, h5⟩, h6⟩, h7⟩, h8⟩ := h
  simp [parseStep, hst, h1, h2, h3, h4, h5, h6, h7, h8]

theorem parseFrom_plain (cs : List Char) (h : ∀ c ∈ cs, isPlain c = true) (d : RE) (σ : Slot) :
    parseFrom cs ⟨[], ⟨none, d⟩, σ, false⟩ = .ok (literals (σ.flush d) cs) := by
  induction cs generalizing d σ with
  | nil => simp [parseFrom, parseEnd, Frame.close, literals]
  | cons c cs ih =>
    rw [parseFrom, parseStep_plain c (h c (List.mem_cons_self _ _)) _ rfl]
    simp only [ParseState.literal]
    rw [ih (fun x hx => h x (List.mem_cons_of_mem _ hx))]
    simp [literals, Slot.flush]

theorem newRegExp_monthPattern (m : String) (h : ∀ c ∈ m.toList, isPlain c = true) :
    newRegExp (monthPattern (some m)) = .ok (monthExpression m.toList) := by
  have hp : (monthPattern (some m)).toList = '-' :: '0' :: '?' :: (m.toList ++ ['-']) := by
    simp [monthPattern, templateText]
  rw [newRegExp, hp]
  have e1 : parseFrom ('-' :: '0' :: '?' :: (m.toList ++ ['-'])) .start
      = parseFrom (m.toList ++ ['-']) ⟨[], ⟨none, 1 * .char '-'⟩, .quantified (.char '0' + 1), false⟩ := by
    simp [parseFrom, parseStep, ParseState.start, ParseState.literal, Slot.flush, isUnsupportedChar]
  rw [e1, parseFrom_plain]
  · rfl
  · intro c hc
    rcases List.mem_append.mp hc with hc | hc
    · exact h c hc
    · simp at hc; subst hc; decide

theorem monthExpression_rmatch_iff (m w : List Char) :
    (monthExpression m).rmatch w = true
      ↔ w = '-' :: (m ++ ['-']) ∨ w = '-' :: '0' :: (m ++ ['-']) := by
  rw [monthExpression, literals_rmatch_iff]
  constructor
  · rintro ⟨u, hu, rfl⟩
    obtain ⟨a, b, rfl, ha, hb⟩ := (mul_rmatch_iff _ _ _).mp hu
    obtain ⟨a1, a2, rfl, ha1, ha2⟩ := (mul_rmatch_iff _ _ _).mp ha
    rw [one_rmatch_iff] at ha1
    rw [char_rmatch_iff] at ha2
    rw [add_rmatch_iff, char_rmatch_iff, one_rmatch_iff] at hb
    subst ha1 ha2
    rcases hb with rfl | rfl
    · right; simp
    · left; simp
  · rintro (rfl | rfl)
    · refine ⟨['-'], (mul_rmatch_iff _ _ _).mpr ⟨['-'], [], by simp, ?_, ?_⟩, by simp⟩
      · exact (mul_rmatch_iff _ _ _).mpr ⟨[], ['-'], by simp, (one_rmatch_iff _).mpr rfl, (char_rmatch_iff _ _).mpr rfl⟩
      · rw [add_rmatch_iff]; right; exact (one_rmatch_iff _).mpr rfl
    · refine ⟨['-', '0'], (mul_rmatch_iff _ _ _).mpr ⟨['-'], ['0'], by simp, ?_, ?_⟩, by simp⟩
      · exact (mul_rmatch_iff _ _ _).mpr ⟨[], ['-'], by simp, (one_rmatch_iff _).mpr rfl, (char_rmatch_iff _ _).mpr rfl⟩
      · rw [add_rmatch_iff]; left; exact (char_rmatch_iff _ _).mpr rfl

/-! ## The store operations and the handlers on a valid month pattern -/


theorem mapRun_ok {α β : Type} (f : α → Run β) (g : α → β) (l : List α)
    (h : ∀ a ∈ l, f a = .ok (g a)) : mapRun f l = .ok (l.map g) := by
  induction l with
  | nil => rfl
  | cons a l ih =>
    simp only [mapRun, h a (List.mem_cons_self _ _),
      ih (fun x hx => h x (List.mem_cons_of_mem _ hx)), List.map_cons]

theorem monthFilter_of_ok {month : Option String} {re : RE}
    (h : newRegExp (monthPattern month) = .ok re) :
    monthFilter month = .ok (.dateOfSaleRegExp re) := by
  simp [monthFilter, h]

theorem monthFilter_of_syntaxError {month : Option String}
    (h : newRegExp (monthPattern month) = .error .syntaxError) :
    monthFilter month = .error .thrown := by
  simp [monthFilter, h, RegExpError.toFailure]

theorem countDocuments_month_sold (db : Collection) (re : RE) (b : Bool) :
    countDocuments db ⟨[.dateOfSaleRegExp re, .sold b], none⟩
      = .ok ((matching re db).filter fun d => d.sold == some b).length := by
  simp [countDocuments, castFilter, castClause, evalFilter, evalClause, mapRun, bind,
    Except.bind, pure, Except.pure, matching, List.filter_filter, Bool.and_comm]

theorem countDocuments_month_price (db : Collection) (re : RE) (r : PriceRange) :
    countDocuments db ⟨[.dateOfSaleRegExp re, .price r.min r.max], none⟩
      = .ok ((matching re db).filter r.holds).length := by
  simp only [countDocuments, castFilter, castClause, evalFilter, evalClause, mapRun, bind,
    Except.bind, pure, Except.pure, matching, List.filter_filter]
  congr 2
  apply List.filter_congr
  intro d _
  simp only [PriceRange.holds, PriceRange.contains, List.all_cons, List.all_nil,
    Bool.and_true]
  rw [Bool.and_comm]
  congr 1
  rcases r with ⟨label, lo, _ | hi⟩ <;> cases d.price <;> simp [Bool.decide_and]

theorem aggregateMatch_month (db : Collection) (re : RE) :
    aggregateMatch db ⟨[.dateOfSaleRegExp re], none⟩ = .ok (matching re db) := by
  simp [aggregateMatch, evalFilter, evalClause, mapRun, bind, Except.bind, pure, Except.pure,
    matching]

theorem find_month (db : Collection) (re : RE) (skip limit : Int) (h : 0 ≤ skip) :
    find db ⟨[.dateOfSaleRegExp re], none⟩ skip limit
      = .ok (if limit = 0 then (matching re db).drop skip.toNat
              else ((matching re db).drop skip.toNat).take limit.natAbs) := by
  have h' : ¬ skip < 0 := not_lt.mpr h
  simp [find, castFilter, castClause, evalFilter, evalClause, mapRun, bind, Except.bind, pure,
    Except.pure, matching, h']

theorem storeSum_nil : storeSum [] = 0 := by
  simp [storeSum, exactlySummable]
  rfl

theorem sum_prices (docs : List ProductTransaction) :
    (prices docs).sum = (docs.map fun d => d.price.getD 0).sum := by
  induction docs with
  | nil => rfl
  | cons d docs ih =>
    unfold prices at ih ⊢
    cases hp : d.price with
    | none => simp [List.filterMap_cons, hp, ih]
    | some p => simp [List.filterMap_cons, hp, ih]

theorem statistics_of_ok (db : Collection) (month : Option String) (re : RE)
    (h : newRegExp (monthPattern month) = .ok re) :
    statistics db month = .ok
      ⟨storeSum (prices (matching re db)),
       ((matching re db).filter fun d => d.sold == some true).length,
       ((matching re db).filter fun d => d.sold == some false).length⟩ := by
  simp only [statistics, monthFilter_of_ok h, bind, Except.bind, aggregateMatch_month,
    countDocuments_month_sold, Except.map, pure, Except.pure, respond]
  congr 2
  unfold groupTotalPrice
  cases hm : matching re db with
  | nil => exact storeSum_nil.symm
  | cons d l => rfl


theorem tally_bump (k c : Option String) (l : List (Option String × Nat)) :
    tally c (bump k l) = tally c l + if c = k then 1 else 0 := by
  induction l with
  | nil =>
    by_cases h : c = k
    · subst h; simp [tally, bump]
    · have h' : ¬ k = c := fun e => h e.symm
      simp [tally, bump, h, h']
  | cons g l ih =>
    obtain ⟨k', n⟩ := g
    by_cases hk : k' = k
    · subst hk
      by_cases hc : c = k'
      · subst hc
        simp [tally, bump, List.filter_cons]
        omega
      · have hc' : ¬ k' = c := fun e => hc e.symm
        simp [tally, bump, List.filter_cons, hc, hc']
    · simp only [bump, hk, if_false]
      by_cases hc : k' = c
      · have := ih
        simp only [tally] at this ⊢
        simp only [List.filter_cons, hc, decide_True, if_true, List.map_cons, List.sum_cons]
        rw [this]; omega
      · have := ih
        simp only [tally] at this ⊢
        simp only [List.filter_cons, hc, decide_False, Bool.false_eq_true, if_false]
        exact this

theorem keys_bump (k : Option String) (l : List (Option String × Nat)) (c : Option String) :
    c ∈ (bump k l).map Prod.fst ↔ c = k ∨ c ∈ l.map Prod.fst := by
  induction l with
  | nil => simp [bump]
  | cons g l ih =>
    obtain ⟨k', n⟩ := g
    by_cases hk : k' = k
    · subst hk; simp [bump]
    · simp only [bump, hk, if_false, List.map_cons, List.mem_cons, ih]
      tauto

theorem nodup_bump (k : Option String) (l : List (Option String × Nat))
    (h : (l.map Prod.fst).Nodup) : ((bump k l).map Prod.fst).Nodup := by
  induction l with
  | nil => simp [bump]
  | cons g l ih =>
    obtain ⟨k', n⟩ := g
    simp only [List.map_cons, List.nodup_cons] at h
    by_cases hk : k' = k
    · subst hk; simpa [bump] using h
    · simp only [bump, hk, if_false, List.map_cons, List.nodup_cons]
      refine ⟨?_, ih h.2⟩
      rw [keys_bump]
      rintro (e | e)
      · exact hk e
      · exact h.1 e

theorem pos_bump (k : Option String) (l : List (Option String × Nat))
    (h : ∀ g ∈ l, 0 < g.2) : ∀ g ∈ bump k l, 0 < g.2 := by
  induction l with
  | nil => simp [bump]
  | cons g l ih =>
    obtain ⟨k', n⟩ := g
    by_cases hk : k' = k
    · subst hk
      intro g hg
      simp only [bump, if_true, List.mem_cons] at hg
      rcases hg with rfl | hg
      · simp
      · exact h g (List.mem_cons_of_mem _ hg)
    · intro g hg
      simp only [bump, hk, if_false, List.mem_cons] at hg
      rcases hg with rfl | hg
      · exact h _ (List.mem_cons_self _ _)
      · exact ih (fun x hx => h x (List.mem_cons_of_mem _ hx)) g hg

theorem sum_bump (k : Option String) (l : List (Option String × Nat)) :
    ((bump k l).map Prod.snd).sum = (l.map Prod.snd).sum + 1 := by
  induction l with
  | nil => simp [bump]
  | cons g l ih =>
    obtain ⟨k', n⟩ := g
    by_cases hk : k' = k
    · subst hk; simp [bump]; omega
    · simp only [bump, hk, if_false, List.map_cons, List.sum_cons, ih]; omega

theorem tally_of_mem (l : List (Option String × Nat)) (h : (l.map Prod.fst).Nodup)
    (g : Option String × Nat) (hg : g ∈ l) : tally g.1 l = g.2 := by
  induction l with
  | nil => simp at hg
  | cons a l ih =>
    simp only [List.map_cons, List.nodup_cons] at h
    rcases List.mem_cons.mp hg with rfl | hg'
    · have : l.filter (fun x => decide (x.1 = g.1)) = [] := by
        rw [List.filter_eq_nil_iff]
        intro x hx
        simp only [decide_eq_true_eq]
        intro e
        exact h.1 (e ▸ List.mem_map_of_mem Prod.fst hx)
      simp [tally, List.filter_cons, this]
    · have hne : ¬ a.1 = g.1 := fun e => h.1 (e ▸ List.mem_map_of_mem Prod.fst hg')
      have := ih h.2 hg'
      simp only [tally] at this ⊢
      simp only [List.filter_cons, hne, decide_False, Bool.false_eq_true, if_false]
      exact this

/-- The groups after counting `docs` on top of `acc`. -/
theorem foldl_bump_spec (docs : List ProductTransaction) (acc : List (Option String × Nat))
    (hn : (acc.map Prod.fst).Nodup) (hp : ∀ g ∈ acc, 0 < g.2) :
    let out := docs.foldl (fun acc d => bump d.category acc) acc
    (out.map Prod.fst).Nodup ∧ (∀ g ∈ out, 0 < g.2) ∧
      (∀ c, tally c out = tally c acc + (docs.filter fun d => d.category = c).length) ∧
      (∀ c, c ∈ out.map Prod.fst ↔ c ∈ acc.map Prod.fst ∨ ∃ d ∈ docs, d.category = c) ∧
      (out.map Prod.snd).sum = (acc.map Prod.snd).sum + docs.length := by
  induction docs generalizing acc with
  | nil => exact ⟨hn, hp, by simp, by simp, by simp⟩
  | cons d docs ih =>
    have := ih (bump d.category acc) (nodup_bump _ _ hn) (pos_bump _ _ hp)
    simp only [List.foldl_cons] at this ⊢
    obtain ⟨h1, h2, h3, h4, h5⟩ := this
    refine ⟨h1, h2, ?_, ?_, ?_⟩
    · intro c
      rw [h3, tally_bump]
      by_cases hc : d.category = c
      · subst hc; simp [List.filter_cons]; omega
      · have hc' : ¬ c = d.category := fun e => hc e.symm
        simp [List.filter_cons, hc, hc']
    · intro c
      rw [h4, keys_bump]
      simp only [List.mem_cons, exists_eq_or_imp]
      constructor
      · rintro ((e | e) | e)
        · exact Or.inr (Or.inl e.symm)
        · exact Or.inl e
        · exact Or.inr (Or.inr e)
      · rintro (e | e | e)
        · exact Or.inl (Or.inr e)
        · exact Or.inl (Or.inl e.symm)
        · exact Or.inr e
    · rw [h5, sum_bump]; simp; omega

/-! ## Plain characters -/


theorem toNat_of_isAlphanum (c : Char) (h : c.isAlphanum = true) :
    (48 ≤ c.toNat ∧ c.toNat ≤ 57) ∨ (65 ≤ c.toNat ∧ c.toNat ≤ 90) ∨
      (97 ≤ c.toNat ∧ c.toNat ≤ 122) := by
  simp only [Char.isAlphanum, Char.isAlpha, Char.isUpper, Char.isLower, Char.isDigit,
    Bool.or_eq_true, Bool.and_eq_true, decide_eq_true_eq, ge_iff_le] at h
  simp only [UInt32.le_def] at h
  simp only [Char.toNat]
  rcases h with (⟨h1, h2⟩ | ⟨h1, h2⟩) | ⟨h1, h2⟩
  · exact Or.inr (Or.inl ⟨h1, h2⟩)
  · exact Or.inr (Or.inr ⟨h1, h2⟩)
  · exact Or.inl ⟨h1, h2⟩

theorem isPlain_of_isAlphanum (c : Char) (h : c.isAlphanum = true) : isPlain c = true := by
  have hb := toNat_of_isAlphanum c h
  have ne : ∀ x : Char, c.toNat ≠ x.toNat → (c == x) = false := by
    intro x hx
    rw [beq_eq_false_iff_ne]
    rintro rfl
    exact hx rfl
  have e1 : '\\'.toNat = 92 := rfl
  have e2 : '('.toNat = 40 := rfl
  have e3 : ')'.toNat = 41 := rfl
  have e4 : '|'.toNat = 124 := rfl
  have e5 : '*'.toNat = 42 := rfl
  have e6 : '+'.toNat = 43 := rfl
  have e7 : '?'.toNat = 63 := rfl
  have e8 : '.'.toNat = 46 := rfl
  have e9 : '['.toNat = 91 := rfl
  have e10 : ']'.toNat = 93 := rfl
  have e11 : '{'.toNat = 123 := rfl
  have e12 : '}'.toNat = 125 := rfl
  have e13 : '^'.toNat = 94 := rfl
  have e14 : '$'.toNat = 36 := rfl
  have hlt : ¬ 65536 ≤ c.toNat := by omega
  simp only [isPlain, isUnsupportedChar, ne '\\' (by omega), ne '(' (by omega),
    ne ')' (by omega), ne '|' (by omega), ne '*' (by omega), ne '+' (by omega),
    ne '?' (by omega), ne '.' (by omega), ne '[' (by omega), ne ']' (by omega),
    ne '{' (by omega), ne '}' (by omega), ne '^' (by omega), ne '$' (by omega), hlt]
  decide

theorem isAlphanum_of_isDigit (c : Char) (h : c.isDigit = true) : c.isAlphanum = true := by
  simp [Char.isAlphanum, h]

/-! ## The month filter and the statistics -/


theorem regexTest_monthExpression (m : String) (text : String) :
    regexTest (monthExpression m.toList) text.toList = true ↔ containsMonth m text := by
  rw [regexTest_iff, containsMonth]
  constructor
  · rintro ⟨w, hw, h⟩
    rcases (monthExpression_rmatch_iff _ _).mp h with rfl | rfl
    · exact Or.inl hw
    · exact Or.inr hw
  · rintro (h | h)
    · exact ⟨_, h, (monthExpression_rmatch_iff _ _).mpr (Or.inl rfl)⟩
    · exact ⟨_, h, (monthExpression_rmatch_iff _ _).mpr (Or.inr rfl)⟩

theorem monthMatches_monthExpression (m : String) (d : ProductTransaction) :
    monthMatches (monthExpression m.toList) d = true ↔ dateContainsMonth m d := by
  unfold monthMatches dateContainsMonth
  cases d.dateOfSale with
  | none => simp
  | some s => exact regexTest_monthExpression m s

/-- C1: for a month given as one or two digits, the month filter built by the
handlers evaluates to a predicate that selects a record exactly when its
`dateOfSale` contains a dash, an optional `0`, the month digits and a dash next
to each other; for month 3 it selects the records dated `2024-03-05` and
`2024-3-15` and not the one dated `2024-04-01`. -/
theorem monthFilter_selects_iff_contains (month : String)
    (hdigits : ∀ c ∈ month.toList, c.isDigit = true) :
    (∃ keep, (monthFilter (some month)).bind evalClause = .ok keep ∧
        ∀ d : ProductTransaction, keep d = true ↔ dateContainsMonth month d) ∧
      (∃ keep, (monthFilter (some "3")).bind evalClause = .ok keep ∧
        keep (dated "2024-03-05") = true ∧ keep (dated "2024-3-15") = true ∧
        keep (dated "2024-04-01") = false) := by
  have hplain : ∀ c ∈ month.toList, isPlain c = true := fun c hc =>
    isPlain_of_isAlphanum c (isAlphanum_of_isDigit c (hdigits c hc))
  refine ⟨⟨monthMatches (monthExpression month.toList), ?_, ?_⟩, ?_⟩
  · rw [monthFilter_of_ok (newRegExp_monthPattern month hplain)]
    rfl
  · exact monthMatches_monthExpression month
  · refine ⟨monthMatches (monthExpression "3".toList), rfl, ?_, ?_, ?_⟩ <;> decide

/-- Instance of C1 at month 11. -/
theorem monthFilter_selects_iff_contains_witness :
    (∃ keep, (monthFilter (some "11")).bind evalClause = .ok keep ∧
        ∀ d : ProductTransaction, keep d = true ↔ dateContainsMonth "11" d) ∧
      (∃ keep, (monthFilter (some "3")).bind evalClause = .ok keep ∧
        keep (dated "2024-03-05") = true ∧ keep (dated "2024-3-15") = true ∧
        keep (dated "2024-04-01") = false) :=
  monthFilter_selects_iff_contains "11" (by decide)


/-- C3 (counterexample): a record dated in March without a `sold` value matches
month 3, yet `statistics` counts it neither as sold nor as not sold: both
counts are 0 while one record matches. -/
theorem statistics_counts_skip_record_without_sold :
    statistics [dated "2024-03-05"] (some "3") = .ok ⟨0, 0, 0⟩ ∧
      ([dated "2024-03-05"].filter fun d => decide (dateContainsMonth "3" d)).length = 1 := by
  constructor
  · rw [statistics_of_ok [dated "2024-03-05"] (some "3") (monthExpression "3".toList) rfl]
    have hm : matching (monthExpression "3".toList) [dated "2024-03-05"]
        = [dated "2024-03-05"] := by decide
    rw [hm]
    have hp : prices [dated "2024-03-05"] = [] := rfl
    rw [hp, storeSum_nil]
    rfl
  · decide

/-- C3 (amended): for every store and every month whose pattern is a valid
expression, `totalSoldItems + totalNotSoldItems` is the number of month-matching
records that carry a `sold` value; it is the number of all month-matching
records when each of them carries one. -/
theorem statistics_sold_plus_notSold (db : Collection) (month : Option String) (re : RE)
    (h : newRegExp (monthPattern month) = .ok re) :
    ∃ stats, statistics db month = .ok stats ∧
      stats.totalSoldItems + stats.totalNotSoldItems
        = ((matching re db).filter fun d => d.sold.isSome).length ∧
      ((∀ d ∈ matching re db, d.sold.isSome = true) →
        stats.totalSoldItems + stats.totalNotSoldItems = (matching re db).length) := by
  refine ⟨_, statistics_of_ok db month re h, ?_, ?_⟩
  · simp only
    induction matching re db with
    | nil => rfl
    | cons d l ih =>
      simp only [List.filter_cons]
      rcases hs : d.sold with _ | b
      · simpa using ih
      · cases b <;> simp <;> omega
  · simp only
    generalize matching re db = l
    intro hall
    induction l with
    | nil => rfl
    | cons d l ih =>
      have ih' := ih (fun x hx => hall x (List.mem_cons_of_mem _ hx))
      have hd := hall d (List.mem_cons_self _ _)
      simp only [List.filter_cons]
      rcases hs : d.sold with _ | b
      · simp [hs] at hd
      · cases b <;> simp <;> omega

/-- Instance of the amended C3 on the three-record scenario, month 3. -/
theorem statistics_sold_plus_notSold_witness :
    ∃ stats, statistics scenario (some "3") = .ok stats ∧
      stats.totalSoldItems + stats.totalNotSoldItems
        = ((matching (monthExpression "3".toList) scenario).filter
            fun d => d.sold.isSome).length ∧
      ((∀ d ∈ matching (monthExpression "3".toList) scenario, d.sold.isSome = true) →
        stats.totalSoldItems + stats.totalNotSoldItems
          = (matching (monthExpression "3".toList) scenario).length) :=
  statistics_sold_plus_notSold scenario (some "3") (monthExpression "3".toList) rfl

/-- C4: for every store and every month whose pattern is a valid expression,
`statistics` returns as `totalSaleAmount` the store's sum of `price` over all
month-matching records, sold or not: the exact sum whenever floating-point
addition of these prices is exact (whole-number prices of bounded size) and 0
when no record matches; `totalSoldItems` is the number of matching records with
`sold = true` and `totalNotSoldItems` the number with `sold = false`; on the
three-record scenario month 3 gives `{200, 1, 1}`. -/
theorem statistics_totals (db : Collection) (month : Option String) (re : RE)
    (h : newRegExp (monthPattern month) = .ok re) :
    (∃ stats, statistics db month = .ok stats ∧
      stats.totalSaleAmount = storeSum (prices (matching re db)) ∧
      (exactlySummable (prices (matching re db)) = true →
        stats.totalSaleAmount
          = .exact ((matching re db).map fun d => d.price.getD 0).sum) ∧
      (matching re db = [] → stats.totalSaleAmount = 0) ∧
      stats.totalSoldItems = ((matching re db).filter fun d => d.sold = some true).length ∧
      stats.totalNotSoldItems
        = ((matching re db).filter fun d => d.sold = some false).length) ∧
    statistics scenario (some "3") = .ok ⟨200, 1, 1⟩ := by
  constructor
  · refine ⟨_, statistics_of_ok db month re h, rfl, ?_, ?_, ?_, ?_⟩
    · intro hex
      simp only [storeSum, hex, if_true, sum_prices]
    · intro he
      simp only [he]
      exact storeSum_nil
    · exact congrArg List.length (List.filter_congr fun d _ => by
        rcases d.sold with _ | _ | _ <;> rfl)
    · exact congrArg List.length (List.filter_congr fun d _ => by
        rcases d.sold with _ | _ | _ <;> rfl)
  · rw [statistics_of_ok scenario (some "3") (monthExpression "3".toList) rfl]
    have hm : matching (monthExpression "3".toList) scenario
        = scenario.take 2 := by decide
    rw [hm]
    have hp : prices (scenario.take 2) = [50, 150] := rfl
    have hs : exactlySummable [50, 150] = true := by decide
    have hsum : storeSum [50, 150] = 200 := by
      simp only [storeSum, hs, if_true]
      show Amount.exact _ = Amount.exact _
      congr 1
      norm_num
    rw [hp, hsum]
    rfl

/-- Instance of C4 on the three-record scenario, month 3. -/
theorem statistics_totals_witness :
    (∃ stats, statistics scenario (some "3") = .ok stats ∧
      stats.totalSaleAmount = storeSum (prices (matching (monthExpression "3".toList) scenario)) ∧
      (exactlySummable (prices (matching (monthExpression "3".toList) scenario)) = true →
        stats.totalSaleAmount
          = .exact ((matching (monthExpression "3".toList) scenario).map
              fun d => d.price.getD 0).sum) ∧
      (matching (monthExpression "3".toList) scenario = [] → stats.totalSaleAmount = 0) ∧
      stats.totalSoldItems
        = ((matching (monthExpression "3".toList) scenario).filter
            fun d => d.sold = some true).length ∧
      stats.totalNotSoldItems
        = ((matching (monthExpression "3".toList) scenario).filter
            fun d => d.sold = some false).length) ∧
    statistics scenario (some "3") = .ok ⟨200, 1, 1⟩ :=
  statistics_totals scenario (some "3") (monthExpression "3".toList) rfl

/-! ## The bar chart -/


theorem barChart_of_ok (db : Collection) (month : Option String) (re : RE)
    (h : newRegExp (monthPattern month) = .ok re) :
    barChart db month = .ok
      (priceRanges.map fun r => ⟨r.range, ((matching re db).filter r.holds).length⟩) := by
  simp only [barChart, monthFilter_of_ok h, bind, Except.bind]
  rw [mapRun_ok _ (fun r => (⟨r.range, ((matching re db).filter r.holds).length⟩ : BarEntry))]
  · rfl
  · intro r _
    simp only [countDocuments_month_price]
    rfl

theorem matching_monthExpression (m : String) (db : Collection) :
    matching (monthExpression m.toList) db
      = db.filter fun d => decide (dateContainsMonth m d) := by
  unfold matching
  apply List.filter_congr
  intro d _
  rw [Bool.eq_iff_iff, monthMatches_monthExpression]
  simp


theorem priceRanges_pairwise_disjoint (p : ℚ) :
    priceRanges.Pairwise fun r r' => ¬ (r.contains p ∧ r'.contains p) := by
  simp only [priceRanges, List.pairwise_cons, List.mem_cons, List.mem_singleton,
    List.not_mem_nil, forall_eq_or_imp, forall_eq, PriceRange.contains, Option.mem_def,
    Option.some.injEq, IsEmpty.forall_iff, implies_true, and_true, List.Pairwise.nil,
    reduceCtorEq, forall_eq']
  repeat' constructor
  all_goals
    intro h
    rcases h with ⟨⟨h1, h2⟩, h3⟩
    first
      | linarith [h3.1]
      | linarith


theorem sum_indicator_of_pairwise {α : Type} (l : List α) (q : α → Bool)
    (h : l.Pairwise fun a b => ¬ (q a = true ∧ q b = true)) :
    (l.map fun a => if q a = true then 1 else 0).sum = if l.any q = true then 1 else 0 := by
  induction l with
  | nil => rfl
  | cons a l ih =>
    rw [List.pairwise_cons] at h
    have ih' := ih h.2
    by_cases ha : q a = true
    · have hl : l.any q = false := by
        rw [List.any_eq_false]
        intro b hb hq
        exact h.1 b hb ⟨ha, hq⟩
      rw [hl] at ih'
      simp only [List.map_cons, List.sum_cons, ha, if_true, List.any_cons, Bool.true_or]
      simp only [Bool.false_eq_true, if_false] at ih'
      rw [ih']
    · simp only [List.map_cons, List.sum_cons, ha, if_false, List.any_cons, Bool.false_eq_true,
        zero_add]
      simpa [ha] using ih'

theorem sum_filter_length_of_pairwise {α β : Type} (l : List α) (docs : List β)
    (q : α → β → Bool)
    (h : ∀ d, l.Pairwise fun a b => ¬ (q a d = true ∧ q b d = true)) :
    (l.map fun a => (docs.filter (q a)).length).sum
      = (docs.filter fun d => l.any fun a => q a d).length := by
  induction docs with
  | nil => simp
  | cons d docs ih =>
    have hsplit : (l.map fun a => ((d :: docs).filter (q a)).length)
        = l.map fun a => (if q a d = true then 1 else 0) + (docs.filter (q a)).length := by
      apply List.map_congr_left
      intro a _
      by_cases hq : q a d = true
      · simp [List.filter_cons, hq]; omega
      · simp [List.filter_cons, hq]
    rw [hsplit, List.sum_map_add, ih, sum_indicator_of_pairwise l (fun a => q a d) (h d)]
    by_cases hany : (l.any fun a => q a d) = true
    · simp [List.filter_cons, hany]; omega
    · simp [List.filter_cons, hany]

theorem holds_pairwise (d : ProductTransaction) :
    priceRanges.Pairwise fun r r' => ¬ (r.holds d = true ∧ r'.holds d = true) := by
  unfold PriceRange.holds
  cases d.price with
  | none => simp [priceRanges]
  | some p => simpa using priceRanges_pairwise_disjoint p

theorem barChart_count_sum (docs : List ProductTransaction) :
    (priceRanges.map fun r => (docs.filter r.holds).length).sum
      = (docs.filter inSomeRange).length :=
  sum_filter_length_of_pairwise priceRanges docs (fun r d => r.holds d) holds_pairwise


theorem inSomeRange_of_int (d : ProductTransaction) (z : ℤ) (h : d.price = some (z : ℚ)) :
    inSomeRange d = hasNonNegativePrice d := by
  rw [Bool.eq_iff_iff]
  simp only [inSomeRange, hasNonNegativePrice, PriceRange.holds, h, priceRanges,
    PriceRange.contains, List.any_cons, List.any_nil, Bool.or_false, Bool.or_eq_true,
    decide_eq_true_eq, Option.mem_def, Option.some.injEq, forall_eq', reduceCtorEq,
    IsEmpty.forall_iff, implies_true, and_true]
  have e : ∀ n : ℕ, ((n : ℚ) ≤ (z : ℚ) ↔ (n : ℤ) ≤ z) ∧ ((z : ℚ) ≤ (n : ℚ) ↔ z ≤ (n : ℤ)) := by
    intro n
    constructor
    · exact_mod_cast Iff.rfl
    · exact_mod_cast Iff.rfl
  have e0 := e 0
  have e100 := e 100
  have e101 := e 101
  have e200 := e 200
  have e201 := e 201
  have e300 := e 300
  have e301 := e 301
  have e400 := e 400
  have e401 := e 401
  have e500 := e 500
  have e501 := e 501
  have e600 := e 600
  have e601 := e 601
  have e700 := e 700
  have e701 := e 701
  have e800 := e 800
  have e801 := e 801
  have e900 := e 900
  have e901 := e 901
  simp only [Nat.cast_ofNat, Nat.cast_zero] at e0 e100 e101 e200 e201 e300 e301 e400 e401 e500 e501 e600 e601 e700 e701 e800 e801 e900 e901
  rw [e0.1, e100.2, e101.1, e200.2, e201.1, e300.2, e301.1, e400.2, e401.1, e500.2, e501.1,
    e600.2, e601.1, e700.2, e701.1, e800.2, e801.1, e900.2, e901.1]
  omega


/-- C5: for every store and every month whose pattern is a valid expression, the
count reported for each of the ten ranges is the number of month-matching
records whose price `p` satisfies `min ≤ p ≤ max` (no upper bound for the last
range); no price lies in two ranges, 100 lies only in `0 - 100` and 101 only in
`101 - 200`; on the three-record scenario month 3 gives count 1 for `0 - 100`,
1 for `101 - 200` and 0 elsewhere. -/
theorem barChart_counts_per_range (db : Collection) (month : Option String) (re : RE)
    (h : newRegExp (monthPattern month) = .ok re) :
    barChart db month = .ok
        (priceRanges.map fun r =>
          ⟨r.range, ((matching re db).filter fun d => r.holds d).length⟩) ∧
      (∀ p : ℚ, ∀ r ∈ priceRanges, ∀ r' ∈ priceRanges,
        r.contains p → r'.contains p → r.range = r'.range) ∧
      (∀ r ∈ priceRanges, r.contains 100 ↔ r.range = "0 - 100") ∧
      (∀ r ∈ priceRanges, r.contains 101 ↔ r.range = "101 - 200") ∧
      barChart scenario (some "3") = .ok
        [⟨"0 - 100", 1⟩, ⟨"101 - 200", 1⟩, ⟨"201 - 300", 0⟩, ⟨"301 - 400", 0⟩,
         ⟨"401 - 500", 0⟩, ⟨"501 - 600", 0⟩, ⟨"601 - 700", 0⟩, ⟨"701 - 800", 0⟩,
         ⟨"801 - 900", 0⟩, ⟨"901 - above", 0⟩] := by
  refine ⟨barChart_of_ok db month re h, ?_, ?_, ?_, ?_⟩
  · intro p r hr r' hr' h1 h2
    by_contra hne
    have hrr : r ≠ r' := fun e => hne (e ▸ rfl)
    have hsymm : Symmetric fun a b : PriceRange => ¬ (a.contains p ∧ b.contains p) :=
      fun a b hab hba => hab ⟨hba.2, hba.1⟩
    exact (priceRanges_pairwise_disjoint p).forall hsymm hr hr' hrr ⟨h1, h2⟩
  · simp only [priceRanges, List.mem_cons, List.mem_singleton, List.not_mem_nil, or_false,
      forall_eq_or_imp, forall_eq, PriceRange.contains, Option.mem_def, Option.some.injEq,
      forall_eq', reduceCtorEq, IsEmpty.forall_iff, implies_true, and_true]
    norm_num
    decide
  · simp only [priceRanges, List.mem_cons, List.mem_singleton, List.not_mem_nil, or_false,
      forall_eq_or_imp, forall_eq, PriceRange.contains, Option.mem_def, Option.some.injEq,
      forall_eq', reduceCtorEq, IsEmpty.forall_iff, implies_true, and_true]
    norm_num
    decide
  · rw [barChart_of_ok scenario (some "3") (monthExpression "3".toList) rfl]
    have hm : matching (monthExpression "3".toList) scenario = scenario.take 2 := by decide
    rw [hm]
    simp only [scenario, priceRanges, List.take, List.map, List.filter, PriceRange.holds,
      PriceRange.contains, Option.mem_def, Option.some.injEq, forall_eq', reduceCtorEq,
      IsEmpty.forall_iff, implies_true, and_true]
    norm_num



/-- Instance of C5 on the three-record scenario, month 3. -/
theorem barChart_counts_per_range_witness :
    barChart scenario (some "3") = .ok
        (priceRanges.map fun r =>
          ⟨r.range, ((matching (monthExpression "3".toList) scenario).filter
            fun d => r.holds d).length⟩) ∧
      (∀ p : ℚ, ∀ r ∈ priceRanges, ∀ r' ∈ priceRanges,
        r.contains p → r'.contains p → r.range = r'.range) ∧
      (∀ r ∈ priceRanges, r.contains 100 ↔ r.range = "0 - 100") ∧
      (∀ r ∈ priceRanges, r.contains 101 ↔ r.range = "101 - 200") ∧
      barChart scenario (some "3") = .ok
        [⟨"0 - 100", 1⟩, ⟨"101 - 200", 1⟩, ⟨"201 - 300", 0⟩, ⟨"301 - 400", 0⟩,
         ⟨"401 - 500", 0⟩, ⟨"501 - 600", 0⟩, ⟨"601 - 700", 0⟩, ⟨"701 - 800", 0⟩,
         ⟨"801 - 900", 0⟩, ⟨"901 - above", 0⟩] :=
  barChart_counts_per_range scenario (some "3") (monthExpression "3".toList) rfl

/-- C2 (counterexample): a March record priced 100.5 matches month 3 and has a
non-negative price, yet it is counted in none of the ten ranges: every count is
0 while one matching record has a non-negative price. -/
theorem barChart_sum_misses_price_between_ranges :
    barChart [priced (201 / 2)] (some "3") = .ok (rangeLabels.map fun l => ⟨l, 0⟩) ∧
      ([priced (201 / 2)].filter fun d =>
        decide (dateContainsMonth "3" d) && hasNonNegativePrice d).length = 1 := by
  constructor
  · rw [barChart_of_ok [priced (201 / 2)] (some "3") (monthExpression "3".toList) rfl]
    have hm : matching (monthExpression "3".toList) [priced (201 / 2)]
        = [priced (201 / 2)] := by
      rw [matching_monthExpression]
      have : dateContainsMonth "3" (priced (201 / 2)) := by
        unfold dateContainsMonth priced
        decide
      simp [this]
    rw [hm]
    simp only [priced, priceRanges, rangeLabels, List.map, List.filter, PriceRange.holds,
      PriceRange.contains, Option.mem_def, Option.some.injEq, forall_eq', reduceCtorEq,
      IsEmpty.forall_iff, implies_true, and_true]
    norm_num
  · have : dateContainsMonth "3" (priced (201 / 2)) := by
      unfold dateContainsMonth priced
      decide
    have hp : hasNonNegativePrice (priced (201 / 2)) = true := by
      simp only [hasNonNegativePrice, priced, decide_eq_true_eq]
      norm_num
    simp [List.filter, this, hp]

/-- C2 (amended): for every store and every month value 1..12, `barChart`
returns exactly ten entries with the labels `0 - 100`, ..., `901 - above` in this
order, and the ten counts add up to the number of month-matching records whose
price lies in one of the ten ranges; when every stored price is a whole number
this is the number of month-matching records with a non-negative price. -/
theorem barChart_ten_ranges (db : Collection) (n : Nat) (h1 : 1 ≤ n) (h12 : n ≤ 12) :
    ∃ entries, barChart db (some (toString n)) = .ok entries ∧
      entries.length = 10 ∧
      entries.map (fun e => e.range) = rangeLabels ∧
      (entries.map fun e => e.count).sum
        = (db.filter fun d => decide (dateContainsMonth (toString n) d) && inSomeRange d).length ∧
      ((∀ d ∈ db, ∀ p, d.price = some p → ∃ z : ℤ, p = z) →
        (entries.map fun e => e.count).sum
          = (db.filter fun d =>
              decide (dateContainsMonth (toString n) d) && hasNonNegativePrice d).length) := by
  have hplain : ∀ c ∈ (toString n).toList, isPlain c = true := by
    interval_cases n <;> decide
  have hre := newRegExp_monthPattern (toString n) hplain
  have hsum : ((priceRanges.map fun r => (⟨r.range,
      ((matching (monthExpression (toString n).toList) db).filter r.holds).length⟩ : BarEntry)).map
        fun e => e.count).sum
      = (db.filter fun d => decide (dateContainsMonth (toString n) d) && inSomeRange d).length := by
    rw [List.map_map]
    have : ((fun e : BarEntry => e.count) ∘ fun r : PriceRange => (⟨r.range,
        ((matching (monthExpression (toString n).toList) db).filter r.holds).length⟩ : BarEntry))
        = fun r => ((matching (monthExpression (toString n).toList) db).filter r.holds).length :=
      rfl
    rw [this, barChart_count_sum, matching_monthExpression, List.filter_filter]
    exact congrArg List.length (List.filter_congr fun d _ => Bool.and_comm _ _)
  refine ⟨_, barChart_of_ok db _ _ hre, by simp [priceRanges], by simp [priceRanges, rangeLabels],
    hsum, ?_⟩
  intro hint
  rw [hsum]
  apply congrArg List.length
  apply List.filter_congr
  intro d hd
  cases hp : d.price with
  | none => simp [inSomeRange, hasNonNegativePrice, PriceRange.holds, hp]
  | some p =>
    obtain ⟨z, hz⟩ := hint d hd p hp
    rw [inSomeRange_of_int d z (hz ▸ hp)]

/-- Instance of the amended C2 on the three-record scenario, month 3. -/
theorem barChart_ten_ranges_witness :
    ∃ entries, barChart scenario (some (toString 3)) = .ok entries ∧
      entries.length = 10 ∧
      entries.map (fun e => e.range) = rangeLabels ∧
      (entries.map fun e => e.count).sum
        = (scenario.filter fun d =>
            decide (dateContainsMonth (toString 3) d) && inSomeRange d).length ∧
      ((∀ d ∈ scenario, ∀ p, d.price = some p → ∃ z : ℤ, p = z) →
        (entries.map fun e => e.count).sum
          = (scenario.filter fun d =>
              decide (dateContainsMonth (toString 3) d) && hasNonNegativePrice d).length) :=
  barChart_ten_ranges scenario 3 (by decide) (by decide)

/-! ## The pie chart -/


theorem pieChart_of_ok (db : Collection) (month : Option String) (re : RE)
    (h : newRegExp (monthPattern month) = .ok re) :
    pieChart db month = .ok
      ((groupCountByCategory (matching re db)).map fun g => ⟨g.1, g.2⟩) := by
  simp only [pieChart, monthFilter_of_ok h, bind, Except.bind, aggregateMatch_month,
    Except.map, pure, Except.pure, respond]

/-- C7: for every store and every month whose pattern is a valid expression,
`pieChart` returns one entry per distinct category found among the
month-matching records (records without a category form the group of the
absent category): categories are not repeated, a category is listed exactly
when some matching record has it, each count is the number of matching records
of the category and is not zero, and the counts add up to the number of
matching records. -/
theorem pieChart_groups (db : Collection) (month : Option String) (re : RE)
    (h : newRegExp (monthPattern month) = .ok re) :
    ∃ entries, pieChart db month = .ok entries ∧
      (entries.map fun e => e.category).Nodup ∧
      (∀ c, c ∈ entries.map (fun e => e.category) ↔ ∃ d ∈ matching re db, d.category = c) ∧
      (∀ e ∈ entries,
        e.count = ((matching re db).filter fun d => d.category = e.category).length ∧
          0 < e.count) ∧
      (entries.map fun e => e.count).sum = (matching re db).length := by
  obtain ⟨h1, h2, h3, h4, h5⟩ :=
    foldl_bump_spec (matching re db) [] (by simp) (by simp)
  have hcat : ((groupCountByCategory (matching re db)).map
      fun g => (⟨g.1, g.2⟩ : PieEntry)).map (fun e => e.category)
      = (groupCountByCategory (matching re db)).map Prod.fst := by
    rw [List.map_map]; rfl
  have hcnt : ((groupCountByCategory (matching re db)).map
      fun g => (⟨g.1, g.2⟩ : PieEntry)).map (fun e => e.count)
      = (groupCountByCategory (matching re db)).map Prod.snd := by
    rw [List.map_map]; rfl
  refine ⟨_, pieChart_of_ok db month re h, ?_, ?_, ?_, ?_⟩
  · rw [hcat]; exact h1
  · intro c
    rw [hcat]
    have := h4 c
    simpa using this
  · intro e he
    obtain ⟨g, hg, rfl⟩ := List.mem_map.mp he
    have ht := tally_of_mem _ h1 g hg
    have hc := h3 g.1
    simp only [tally, List.filter_nil, List.map_nil, List.sum_nil, zero_add] at hc
    constructor
    · simp only
      rw [← ht]
      exact hc
    · exact h2 g hg
  · rw [hcnt]
    simpa using h5

/-- Instance of C7 on the three-record scenario, month 3. -/
theorem pieChart_groups_witness :
    ∃ entries, pieChart scenario (some "3") = .ok entries ∧
      (entries.map fun e => e.category).Nodup ∧
      (∀ c, c ∈ entries.map (fun e => e.category)
        ↔ ∃ d ∈ matching (monthExpression "3".toList) scenario, d.category = c) ∧
      (∀ e ∈ entries,
        e.count = ((matching (monthExpression "3".toList) scenario).filter
            fun d => d.category = e.category).length ∧
          0 < e.count) ∧
      (entries.map fun e => e.count).sum
        = (matching (monthExpression "3".toList) scenario).length :=
  pieChart_groups scenario (some "3") (monthExpression "3".toList) rfl

/-! ## Listing: pagination -/


theorem listTransactions_of_ok (db : Collection) (month search : Option String)
    (page perPage : Option Int) (re : RE)
    (h : newRegExp (monthPattern month) = .ok re) (hs : isTruthy search = false)
    (hskip : 0 ≤ (page.getD 1 - 1) * perPage.getD 10) :
    listTransactions db month search page perPage = .ok
      (if perPage.getD 10 = 0 then
        (matching re db).drop ((page.getD 1 - 1) * perPage.getD 10).toNat
       else
        ((matching re db).drop ((page.getD 1 - 1) * perPage.getD 10).toNat).take
          (perPage.getD 10).natAbs) := by
  simp only [listTransactions, monthFilter_of_ok h, hs, bind, Except.bind, Bool.false_eq_true,
    if_false, find_month db re _ _ hskip, respond]

theorem listTransactions_of_syntaxError (db : Collection) (month search : Option String)
    (page perPage : Option Int)
    (h : newRegExp (monthPattern month) = .error .syntaxError) :
    listTransactions db month search page perPage
      = .serverError "Error fetching transactions." := by
  simp only [listTransactions, monthFilter_of_syntaxError h, bind, Except.bind, respond]

/-- C6: with a valid month pattern and no search term, for every `page ≥ 1` and
`perPage ≥ 1` `listTransactions` returns the month-matching records with the
first `(page-1)*perPage` dropped and then at most `perPage` taken, in store
order; absent `page` and `perPage` stand for 1 and 10; with `perPage = 10` and
`page = 2` the first record returned is the one at offset 10; and when the skip
is at least the number of matching records the result is the empty list, not an
error. -/
theorem listTransactions_pagination (db : Collection) (month search : Option String)
    (re : RE) (page perPage : Int)
    (h : newRegExp (monthPattern month) = .ok re) (hs : isTruthy search = false)
    (hpage : 1 ≤ page) (hperPage : 1 ≤ perPage) :
    listTransactions db month search (some page) (some perPage) = .ok
        (((matching re db).drop ((page - 1) * perPage).toNat).take perPage.toNat) ∧
      listTransactions db month search none none
        = listTransactions db month search (some 1) (some 10) ∧
      listTransactions db month search none none = .ok ((matching re db).take 10) ∧
      (∃ records, listTransactions db month search (some 2) (some 10) = .ok records ∧
        records.head? = (matching re db)[10]?) ∧
      ((matching re db).length ≤ ((page - 1) * perPage).toNat →
        listTransactions db month search (some page) (some perPage) = .ok []) := by
  have hskip : (0 : Int) ≤ (page - 1) * perPage :=
    Int.mul_nonneg (by omega) (by omega)
  have hne : ¬ perPage = 0 := by omega
  have habs : perPage.natAbs = perPage.toNat := by omega
  have hmain := listTransactions_of_ok db month search (some page) (some perPage) re h hs
    (by simpa using hskip)
  simp only [Option.getD_some, hne, if_false, habs] at hmain
  refine ⟨hmain, rfl, ?_, ?_, ?_⟩
  · have := listTransactions_of_ok db month search none none re h hs (by simp)
    simpa using this
  · have := listTransactions_of_ok db month search (some 2) (some 10) re h hs (by simp)
    refine ⟨_, this, ?_⟩
    simp only [Option.getD_some]
    have e1 : ((2 - 1) * 10 : Int).toNat = 10 := by decide
    have e2 : (10 : Int).natAbs = 10 := by decide
    have e3 : ¬ (10 : Int) = 0 := by decide
    rw [e1, e2, if_neg e3]
    cases hl : (matching re db).drop 10 with
    | nil =>
      have : (matching re db).length ≤ 10 := by simpa using hl
      simp [List.getElem?_eq_none this]
    | cons a l =>
      have h0 : ((matching re db).drop 10)[0]? = some a := by rw [hl]; simp
      rw [List.getElem?_drop] at h0
      simp [← h0]
  · intro hlen
    rw [hmain, List.drop_eq_nil_of_le hlen, List.take_nil]

/-- Instance of C6 on the three-record scenario: month 3, page 1, one record per page. -/
theorem listTransactions_pagination_witness :
    listTransactions scenario (some "3") none (some 1) (some 1) = .ok
        (((matching (monthExpression "3".toList) scenario).drop ((1 - 1) * 1 : Int).toNat).take
          (1 : Int).toNat) ∧
      listTransactions scenario (some "3") none none none
        = listTransactions scenario (some "3") none (some 1) (some 10) ∧
      listTransactions scenario (some "3") none none none
        = .ok ((matching (monthExpression "3".toList) scenario).take 10) ∧
      (∃ records, listTransactions scenario (some "3") none (some 2) (some 10) = .ok records ∧
        records.head? = (matching (monthExpression "3".toList) scenario)[10]?) ∧
      ((matching (monthExpression "3".toList) scenario).length ≤ ((1 - 1) * 1 : Int).toNat →
        listTransactions scenario (some "3") none (some 1) (some 1) = .ok []) :=
  listTransactions_pagination scenario (some "3") none (monthExpression "3".toList) 1 1 rfl rfl
    (by decide) (by decide)

/-! ## Search terms and malformed parameters -/


theorem statistics_of_syntaxError (db : Collection) (month : Option String)
    (h : newRegExp (monthPattern month) = .error .syntaxError) :
    statistics db month = .serverError "Error fetching statistics." := by
  simp only [statistics, monthFilter_of_syntaxError h, bind, Except.bind, respond]

theorem newRegExp_of_isAlphanum (month : Option String)
    (h : ∀ c ∈ (templateText month).toList, c.isAlphanum = true) :
    newRegExp (monthPattern month) = .ok (monthExpression (templateText month).toList) := by
  have hp : monthPattern month = monthPattern (some (templateText month)) := by
    cases month <;> rfl
  rw [hp]
  exact newRegExp_monthPattern _ fun c hc => isPlain_of_isAlphanum c (h c hc)

/-- A search term makes the cast of the filter throw: the `$or` member on the
number path `price` carries `$regex`. -/
theorem find_search_throws (db : Collection) (re : RE) (search : String) (skip limit : Int) :
    find db ⟨[.dateOfSaleRegExp re], some (searchFilter search)⟩ skip limit
      = .error .thrown := by
  simp [find, castFilter, castClause, searchFilter, mapRun, productTransactionSchema, bind,
    Except.bind, pure, Except.pure]

/-- With a non-empty search term the handler never sends a list of records. -/
theorem listTransactions_search_not_ok (db : Collection) (month search : Option String)
    (page perPage : Option Int) (hs : isTruthy search = true)
    (records : List ProductTransaction) :
    listTransactions db month search page perPage ≠ .ok records := by
  simp only [listTransactions, hs, if_true]
  cases hm : monthFilter month with
  | error e => cases e <;> simp [bind, Except.bind, respond]
  | ok clause =>
    have hc : ∃ re, clause = .dateOfSaleRegExp re := by
      unfold monthFilter at hm
      split at hm
      · exact ⟨_, (Except.ok.inj hm).symm⟩
      · cases hm
    obtain ⟨re, rfl⟩ := hc
    simp [bind, Except.bind, find_search_throws, respond]

/-- C8 (failing input): in the three-record scenario the second record is dated
in March and its price is 150, yet `listTransactions` with month 3 and search
term `150` answers with the 500 error instead of returning it. -/
theorem listTransactions_search_fails :
    listTransactions scenario (some "3") (some "150") none none
        = .serverError "Error fetching transactions." ∧
      ∃ d ∈ scenario, dateContainsMonth "3" d ∧ d.price = some 150 := by
  constructor <;> decide

/-- C9 (counterexample): the month value `(` makes the pattern `-0?(-` invalid,
and each of the four handlers answers with its 500 error; so does
`listTransactions` for `page = 0`, whose skip is negative. -/
theorem handlers_fail_on_malformed_parameters :
    listTransactions scenario (some "(") none none none
        = .serverError "Error fetching transactions." ∧
      statistics scenario (some "(") = .serverError "Error fetching statistics." ∧
      barChart scenario (some "(") = .serverError "Error fetching bar chart data." ∧
      pieChart scenario (some "(") = .serverError "Error fetching pie chart data." ∧
      listTransactions scenario (some "3") none (some 0) none
        = .serverError "Error fetching transactions." := by
  refine ⟨?_, ?_, ?_, ?_, ?_⟩ <;> decide

theorem barChart_of_syntaxError (db : Collection) (month : Option String)
    (h : newRegExp (monthPattern month) = .error .syntaxError) :
    barChart db month = .serverError "Error fetching bar chart data." := by
  simp only [barChart, monthFilter_of_syntaxError h, bind, Except.bind, respond]

theorem pieChart_of_syntaxError (db : Collection) (month : Option String)
    (h : newRegExp (monthPattern month) = .error .syntaxError) :
    pieChart db month = .serverError "Error fetching pie chart data." := by
  simp only [pieChart, monthFilter_of_syntaxError h, bind, Except.bind, respond]

theorem find_month_negative_skip (db : Collection) (re : RE) (skip limit : Int)
    (h : skip < 0) :
    find db ⟨[.dateOfSaleRegExp re], none⟩ skip limit = .error .thrown := by
  simp [find, castFilter, castClause, evalFilter, evalClause, mapRun, bind, Except.bind, pure,
    Except.pure, h, throw, throwThe, MonadExceptOf.throw]

theorem listTransactions_of_negative_skip (db : Collection) (month search : Option String)
    (page perPage : Option Int) (re : RE)
    (h : newRegExp (monthPattern month) = .ok re) (hs : isTruthy search = false)
    (hskip : (page.getD 1 - 1) * perPage.getD 10 < 0) :
    listTransactions db month search page perPage
      = .serverError "Error fetching transactions." := by
  simp only [listTransactions, monthFilter_of_ok h, hs, bind, Except.bind, Bool.false_eq_true,
    if_false, find_month_negative_skip db re _ _ hskip, respond]

/-- C9 (amended): whether a handler answers with a result or with the 500 error
is decided by the pattern `-0?<month>-` and by the skip alone.  For every month
value, given or absent, whose pattern is a valid expression (text with
metacharacters such as `|` or `?`, signs, commas, letters and digits included),
`statistics`, `barChart` and `pieChart` send a result, and `listTransactions`
without search term sends a result when the skip `(page-1)*perPage` is not
negative and the 500 error when it is negative; for every month value whose
pattern is not a valid expression all four send their 500 error; and the
pattern is valid for every month made of letters and digits only and for the
absent month. -/
theorem handlers_answer_iff_pattern_and_skip_valid (db : Collection)
    (month search : Option String) (page perPage : Option Int) :
    (∀ re, newRegExp (monthPattern month) = .ok re →
      (∃ stats, statistics db month = .ok stats) ∧
      (∃ entries, barChart db month = .ok entries) ∧
      (∃ entries, pieChart db month = .ok entries) ∧
      (isTruthy search = false → 0 ≤ (page.getD 1 - 1) * perPage.getD 10 →
        ∃ records, listTransactions db month search page perPage = .ok records) ∧
      (isTruthy search = false → (page.getD 1 - 1) * perPage.getD 10 < 0 →
        listTransactions db month search page perPage
          = .serverError "Error fetching transactions.")) ∧
    (newRegExp (monthPattern month) = .error .syntaxError →
      listTransactions db month search page perPage
        = .serverError "Error fetching transactions." ∧
      statistics db month = .serverError "Error fetching statistics." ∧
      barChart db month = .serverError "Error fetching bar chart data." ∧
      pieChart db month = .serverError "Error fetching pie chart data.") ∧
    ((∀ c ∈ (templateText month).toList, c.isAlphanum = true) →
      ∃ re, newRegExp (monthPattern month) = .ok re) := by
  refine ⟨?_, ?_, ?_⟩
  · intro re h
    exact ⟨⟨_, statistics_of_ok db month re h⟩, ⟨_, barChart_of_ok db month re h⟩,
      ⟨_, pieChart_of_ok db month re h⟩,
      fun hs hskip => ⟨_, listTransactions_of_ok db month search page perPage re h hs hskip⟩,
      fun hs hskip => listTransactions_of_negative_skip db month search page perPage re h hs hskip⟩
  · intro h
    exact ⟨listTransactions_of_syntaxError db month search page perPage h,
      statistics_of_syntaxError db month h, barChart_of_syntaxError db month h,
      pieChart_of_syntaxError db month h⟩
  · intro h
    exact ⟨_, newRegExp_of_isAlphanum month h⟩

/-- Instances of the amended C9: month `|` with page 2 and month `-1` are
answered with a result, month 3 with page 0 and month `(` with the 500 error,
and the pattern of the absent month is valid. -/
theorem handlers_answer_iff_pattern_and_skip_valid_witness :
    ((∃ stats, statistics scenario (some "|") = .ok stats) ∧
      (∃ entries, barChart scenario (some "|") = .ok entries) ∧
      (∃ entries, pieChart scenario (some "|") = .ok entries) ∧
      (∃ records, listTransactions scenario (some "|") none (some 2) none = .ok records)) ∧
    (∃ stats, statistics scenario (some "-1") = .ok stats) ∧
    listTransactions scenario (some "3") none (some 0) none
      = .serverError "Error fetching transactions." ∧
    (listTransactions scenario (some "(") none none none
        = .serverError "Error fetching transactions." ∧
      statistics scenario (some "(") = .serverError "Error fetching statistics." ∧
      barChart scenario (some "(") = .serverError "Error fetching bar chart data." ∧
      pieChart scenario (some "(") = .serverError "Error fetching pie chart data.") ∧
    (∃ re, newRegExp (monthPattern none) = .ok re) :=
  have valid := (handlers_answer_iff_pattern_and_skip_valid scenario (some "|") none
    (some 2) none).1 _ rfl
  have signed := (handlers_answer_iff_pattern_and_skip_valid scenario (some "-1") none
    none none).1 _ rfl
  have negative := (handlers_answer_iff_pattern_and_skip_valid scenario (some "3") none
    (some 0) none).1 _ rfl
  ⟨⟨valid.1, valid.2.1, valid.2.2.1, valid.2.2.2.1 rfl (by decide)⟩,
    signed.1,
    negative.2.2.2.2 rfl (by decide),
    (handlers_answer_iff_pattern_and_skip_valid scenario (some "(") none none none).2.1 rfl,
    (handlers_answer_iff_pattern_and_skip_valid scenario none none none none).2.2 (by decide)⟩

/-- C10 (counterexample): a stored record dated `2024-13-01` is returned by
`listTransactions` for month 13. -/
theorem listTransactions_month13_not_empty :
    listTransactions [dated "2024-13-01"] (some "13") none none none
      = .ok [dated "2024-13-01"] := by
  decide

/-- C10 (amended): for every month value made of letters and digits only, which
covers every out-of-range number such as 13 and every non-numeric word, the
month filter selects exactly the records whose `dateOfSale` contains
`-<month>-` or `-0<month>-`; `listTransactions` without search term and with a
skip that is not negative returns the empty list for every store in which no
`dateOfSale` contains such text. -/
theorem listTransactions_empty_without_month_text (db : Collection) (month : String)
    (page perPage : Option Int)
    (hmonth : ∀ c ∈ month.toList, c.isAlphanum = true)
    (hskip : 0 ≤ (page.getD 1 - 1) * perPage.getD 10)
    (hnone : ∀ d ∈ db, ¬ dateContainsMonth month d) :
    (∃ keep, (monthFilter (some month)).bind evalClause = .ok keep ∧
        ∀ d : ProductTransaction, keep d = true ↔ dateContainsMonth month d) ∧
      listTransactions db (some month) none page perPage = .ok [] := by
  have h := newRegExp_of_isAlphanum (some month) hmonth
  simp only [templateText] at h
  constructor
  · refine ⟨monthMatches (monthExpression month.toList), ?_, monthMatches_monthExpression month⟩
    rw [monthFilter_of_ok h]
    rfl
  · rw [listTransactions_of_ok db (some month) none page perPage _ h rfl hskip]
    have he : matching (monthExpression month.toList) db = [] := by
      rw [matching_monthExpression, List.filter_eq_nil_iff]
      intro d hd
      simpa using hnone d hd
    rw [he]
    simp

/-- Instance of the amended C10: month 13 on the three-record scenario. -/
theorem listTransactions_empty_without_month_text_witness :
    (∃ keep, (monthFilter (some "13")).bind evalClause = .ok keep ∧
        ∀ d : ProductTransaction, keep d = true ↔ dateContainsMonth "13" d) ∧
      listTransactions scenario (some "13") none none none = .ok [] :=
  listTransactions_empty_without_month_text scenario "13" none none (by decide) (by decide)
    (by decide)

end Roxiler
